import Mathlib

/-!
Shallow embedding of the cmd-guard risk-analysis engine
(src/analyzer.js, src/riskPatterns.js, src/suggestions.js).

JavaScript strings are modelled as Lean `String`; `String.prototype.includes`
becomes an infix check on the character lists, `split(/\s+/)` after `trim()`
becomes `splitWs` (whitespace is modelled as the ASCII whitespace characters),
`Array.prototype.includes` becomes list membership, and JS `undefined` /
`null` become `Option.none`. Severity strings \x7blow, medium, high\x7d are a
closed enumeration in the code, modelled as an inductive type.

Property reads `obj[key]` on the object literals `riskPatterns` and
`explanations` traverse the prototype chain: when `key` is not an own key
but names an `Object.prototype` member (`protoKeys` below), the read yields
that truthy inherited member instead of `undefined`. `analyzeRisks` and
`generateExplanation` model this fallback explicitly; `getSuggestion` uses
`Object.entries`, which enumerates own keys only, and the subcommand lookup
is guarded in the source by `typeof subPattern === 'object'` together with
the absent `risks` property, so inherited members contribute no findings
there.
-/

namespace CmdGuard

/-- Risk severities used by the catalog and the aggregator. -/
inductive Severity
  | low
  | medium
  | high
deriving DecidableEq

/-- A catalog risk entry is keyed either by a flag (matched as an exact
argument token) or by a pattern (matched as a substring of the joined
argument string). -/
inductive RiskKey
  | flag (s : String)
  | pattern (s : String)
deriving DecidableEq

/-- One catalog risk entry / one matched finding: the code copies the
`\x7bflag|pattern, risk, reason\x7d` fields verbatim from the catalog entry into
the finding, so both share this shape. -/
structure RiskEntry where
  key : RiskKey
  risk : Severity
  reason : String
deriving DecidableEq

/-- ASCII whitespace, modelling the characters relevant to JS `trim()` and
the `\s` class in `split(/\s+/)` for the inputs considered here. -/
def isWs (c : Char) : Bool :=
  c = ' ' || c = '\t' || c = '\n' || c = '\r' || c = '\x0b' || c = '\x0c'

/-- Accumulator-based splitter: splits a character list on runs of
whitespace, dropping empty tokens, i.e. `trimmed.split(/\s+/)` composed with
`trim()`. -/
def splitWsAux : List Char → List Char → List (List Char)
  | [], cur => if cur.isEmpty then [] else [cur.reverse]
  | c :: cs, cur =>
    if isWs c then
      if cur.isEmpty then splitWsAux cs [] else cur.reverse :: splitWsAux cs []
    else
      splitWsAux cs (c :: cur)

def splitWs (l : List Char) : List (List Char) := splitWsAux l []

/-- Parsed command: first whitespace-delimited token and the remaining
tokens (src/analyzer.js `parseCommand`). -/
structure Command where
  tool : String
  args : List String
deriving DecidableEq

/-- `parseCommand`: trim, return `\x7btool: '', args: []\x7d` for empty input, else
split on whitespace runs. -/
def parseCommand (command : String) : Command :=
  match splitWs command.toList with
  | [] => ⟨"", []⟩
  | t :: rest => ⟨String.mk t, rest.map String.mk⟩

/-- JS `String.prototype.includes`: substring containment. -/
def jsIncludes (s sub : String) : Bool :=
  decide (sub.toList <:+: s.toList)

/-- JS `String.prototype.startsWith`. -/
def jsStartsWith (s p : String) : Bool :=
  decide (p.toList <+: s.toList)

/-- JS `args.join(' ')`. -/
def joinSpace (args : List String) : String :=
  String.intercalate " " args

/-- A subcommand value in the risk catalog: a JS object that may carry a
direct `risks` list, a `safer` string, a `reason` string, and further
subcommand keys (as docker's `system` object carries `prune`). -/
inductive SubVal
  | node (risks : Option (List RiskEntry)) (safer : Option String)
         (reason : Option String) (children : List (String × SubVal))

/-- Direct `risks` property of a subcommand object. -/
def SubVal.directRisks : SubVal → Option (List RiskEntry)
  | .node r _ _ _ => r

/-- One tool entry of the risk catalog (src/riskPatterns.js). -/
structure ToolPattern where
  tool : String
  description : String
  risks : Option (List RiskEntry) := none
  subcommands : Option (List (String × SubVal)) := none

def rmPattern : ToolPattern :=
  { tool := "rm", description := "File deletion command",
    risks := some [
      ⟨.flag "-rf", .high, "Recursively deletes without confirmation"⟩,
      ⟨.flag "-f", .high, "Forces deletion, ignores permissions"⟩,
      ⟨.flag "-r", .medium, "Recursive deletion; combine with -f for high risk"⟩] }

def gitPattern : ToolPattern :=
  { tool := "git", description := "Git version control",
    subcommands := some [
      ("push", .node (some [
          ⟨.flag "--force", .high, "Overwrites remote history; may affect team"⟩,
          ⟨.flag "-f", .high, "Same as --force; destructive to shared repo"⟩])
        (some "git push --force-with-lease (checks remote changes first)") none []),
      ("reset", .node (some [
          ⟨.flag "--hard", .high, "Discards all uncommitted changes irreversibly"⟩])
        (some "git reset (without --hard) or create backup branch first") none []),
      ("clean", .node (some [
          ⟨.flag "-f", .high, "Forces deletion of untracked files"⟩,
          ⟨.flag "-fd", .high, "Deletes untracked files AND directories"⟩])
        none none [])] }

/-- The risk list declared under docker's nested `system prune` object. -/
def dockerSystemPruneRisks : List RiskEntry :=
  [⟨.flag "-a", .high, "Removes all unused images (may be intentional)"⟩,
   ⟨.flag "--volumes", .high, "Deletes unused volumes with potential data"⟩]

def dockerPattern : ToolPattern :=
  { tool := "docker", description := "Docker container/image operations",
    subcommands := some [
      ("system", .node none none none [
        ("prune", .node (some dockerSystemPruneRisks) none
          (some "Removes Docker resources; can be costly if accidental") [])]),
      ("rmi", .node (some [
          ⟨.flag "-f", .high, "Force removes image, breaks dependent containers"⟩])
        none (some "Permanently deletes Docker images") []),
      ("rm", .node (some [
          ⟨.flag "-f", .medium, "Force removes container; data loss possible"⟩])
        none (some "Deletes Docker containers") [])] }

def ddPattern : ToolPattern :=
  { tool := "dd", description := "Disk/device data copy; extreme risk with wrong arguments",
    risks := some [
      ⟨.pattern "if=/dev/", .high, "Reading from raw disk device"⟩,
      ⟨.pattern "of=/dev/", .high, "Writing to raw disk device; IRREVERSIBLE data corruption"⟩] }

def chmodPattern : ToolPattern :=
  { tool := "chmod", description := "File permission change",
    risks := some [
      ⟨.flag "777", .high, "World-readable/writable; major security vulnerability"⟩,
      ⟨.flag "755", .low, "Standard; acceptable for most executables"⟩] }

def chownPattern : ToolPattern :=
  { tool := "chown", description := "Change file owner",
    risks := some [
      ⟨.flag "-R", .high, "Recursively changes ownership; can break system access"⟩] }

def sudoPattern : ToolPattern :=
  { tool := "sudo", description := "Elevated privilege execution",
    risks := some [
      ⟨.pattern "sudo", .medium, "Executing with root privileges; verify command is safe"⟩] }

def curlPattern : ToolPattern :=
  { tool := "curl", description := "HTTP client; can execute remote code if piped",
    risks := some [
      ⟨.flag "| sh", .high, "Piping to shell executes arbitrary code from URL"⟩,
      ⟨.flag "| bash", .high, "Piping to bash executes arbitrary code from URL"⟩] }

def wgetPattern : ToolPattern :=
  { tool := "wget", description := "File downloader; dangerous if output is executed",
    risks := some [
      ⟨.flag "| sh", .high, "Piping to shell executes arbitrary code"⟩] }

/-- Own-property names of `Object.prototype` (Node): a property read
`obj[key]` on an object literal falls back to these inherited members when
`key` is not an own key, yielding a truthy function (or, for `__proto__`
and via the accessor, an object) rather than `undefined`. -/
def protoKeys : List String :=
  ["constructor", "__defineGetter__", "__defineSetter__", "hasOwnProperty",
   "__lookupGetter__", "__lookupSetter__", "isPrototypeOf",
   "propertyIsEnumerable", "toString", "valueOf", "__proto__",
   "toLocaleString"]

/-- The `riskPatterns` object's own keys: property lookup by tool name among
the declared catalog entries. `analyzeRisks` adds the prototype-chain
fallback on top of this. -/
def riskPatterns (tool : String) : Option ToolPattern :=
  if tool = "rm" then some rmPattern
  else if tool = "git" then some gitPattern
  else if tool = "docker" then some dockerPattern
  else if tool = "dd" then some ddPattern
  else if tool = "chmod" then some chmodPattern
  else if tool = "chown" then some chownPattern
  else if tool = "sudo" then some sudoPattern
  else if tool = "curl" then some curlPattern
  else if tool = "wget" then some wgetPattern
  else none

/-- Assoc-list lookup modelling JS object property access by a computed key. -/
def lookupStr {α : Type} (l : List (String × α)) (k : String) : Option α :=
  (l.find? (fun p => decide (p.1 = k))).map (fun p => p.2)

/-- The flat-risk match of `analyzeRisks`: flag entries test exact token
membership in `args`; pattern entries test substring containment in the
space-joined argument string. -/
def flatMatch (args : List String) (argStr : String) (e : RiskEntry) : Bool :=
  match e.key with
  | .flag f => decide (f ∈ args)
  | .pattern p => jsIncludes argStr p

/-- The subcommand-risk match of `analyzeRisks`: only
`args.includes(riskItem.flag)` is tested (a pattern-keyed item would compare
`args.includes(undefined)`, which is always false). -/
def subMatch (args : List String) (e : RiskEntry) : Bool :=
  match e.key with
  | .flag f => decide (f ∈ args)
  | .pattern _ => false

/-- Findings contributed by the tool's flat `risks` list. -/
def flatRiskList (pat : ToolPattern) (args : List String) (argStr : String) : List RiskEntry :=
  match pat.risks with
  | none => []
  | some rl => rl.filter (flatMatch args argStr)

/-- Findings contributed by the subcommand block of `analyzeRisks`: looks up
`args[0]` among the declared subcommand keys (skipped when `args[0]` is
absent or the empty string, both falsy in JS) and, when the found object
carries a direct `risks` property, filters it by exact flag membership.
Nested children are never consulted. -/
def subRiskList (pat : ToolPattern) (args : List String) : List RiskEntry :=
  match pat.subcommands with
  | none => []
  | some subs =>
    match args.head? with
    | none => []
    | some sc =>
      if sc = "" then []
      else
        match lookupStr subs sc with
        | none => []
        | some sv =>
          match sv.directRisks with
          | none => []
          | some rl => rl.filter (subMatch args)

/-- Result of `analyzeRisks`. -/
structure RiskAnalysis where
  found : Bool
  tool : String
  risks : List RiskEntry
  description : Option String := none
deriving DecidableEq

/-- `analyzeRisks` from src/riskPatterns.js. The `riskPatterns[tool]` read
traverses the prototype chain: for a tool named after an `Object.prototype`
member the read yields that truthy inherited member, so the `!pattern` guard
does not fire and the function returns found=true — with no findings and no
description, since the inherited member has neither a `risks` nor a
`subcommands` nor a `description` property. -/
def analyzeRisks (tool : String) (args : List String) : RiskAnalysis :=
  match riskPatterns tool with
  | none =>
    if tool ∈ protoKeys then
      { found := true, tool := tool, risks := [], description := none }
    else
      { found := false, tool := tool, risks := [] }
  | some pat =>
    { found := true, tool := tool,
      risks := flatRiskList pat args (joinSpace args) ++ subRiskList pat args,
      description := some pat.description }

/-- `getRiskLevel` from src/riskPatterns.js: empty list is low; any high
entry dominates; else any medium entry; else low. -/
def getRiskLevel (risks : List RiskEntry) : Severity :=
  if risks.isEmpty then .low
  else if risks.any (fun r => decide (r.risk = .high)) then .high
  else if risks.any (fun r => decide (r.risk = .medium)) then .medium
  else .low

/-- `checkPipeRisks` from src/analyzer.js: the cross-cutting heuristic
layer. -/
def checkPipeRisks (command tool : String) (args : List String) : List RiskEntry :=
  (if (tool = "curl" ∨ tool = "wget") ∧
      (jsIncludes command "| sh" = true ∨ jsIncludes command "| bash" = true) then
    [⟨.pattern (if jsIncludes command "| sh" then "| sh" else "| bash"), .high,
      "Piping to shell executes downloaded content without inspection"⟩]
   else []) ++
  (if tool = "docker" ∧ args.get? 0 = some "system" ∧ args.get? 1 = some "prune" ∧
      "-a" ∈ args then
    [⟨.flag "-a", .high, "Removes all unused images including tagged ones"⟩]
   else [])

/-- One safer-alternative rule from src/suggestions.js. -/
structure Suggestion where
  dangerous : String
  safer : String
  explanation : String
deriving DecidableEq

/-- The `suggestions` object of src/suggestions.js, in declared key order. -/
def suggestionList : List (String × Suggestion) :=
  [("rm -rf",
    ⟨"rm -rf <path>", "rm -ri <path>", "Interactive mode prompts before each deletion"⟩),
   ("rm --force --recursive",
    ⟨"rm --force --recursive <path>", "rm -ri <path>",
     "Interactive mode prompts before each deletion"⟩),
   ("git push --force",
    ⟨"git push --force", "git push --force-with-lease",
     "Only force-push if remote hasn\x27t changed; safer for shared repos"⟩),
   ("git reset --hard",
    ⟨"git reset --hard", "Create backup branch first: git branch backup && git reset --hard",
     "Preserves commit history in case you need to recover"⟩),
   ("docker system prune -a",
    ⟨"docker system prune -a", "docker system prune (without -a) or docker image prune",
     "Without -a, only removes dangling images. Safer for production"⟩),
   ("chmod 777",
    ⟨"chmod 777 <path>", "chmod 755 <path> (executables) or chmod 644 <path> (files)",
     "Restricts access to owner+group, not world-readable"⟩),
   ("curl | sh",
    ⟨"curl <url> | sh", "curl <url> -o script.sh && cat script.sh && sh script.sh",
     "Inspect the script before executing it"⟩)]

/-- `getSuggestion`: first rule (in declared order) whose key occurs as a
substring of the raw command. -/
def getSuggestion (command : String) : Option Suggestion :=
  (suggestionList.find? (fun p => jsIncludes command p.1)).map (fun p => p.2)

/-- `getContextualSuggestion` from src/suggestions.js. -/
def getContextualSuggestion (tool : String) (args : List String) : Option String :=
  if tool = "npm" ∧ "install" ∈ args then
    some "Consider using npm ci for CI/CD (installs exact versions from package-lock.json)"
  else if tool = "npm" ∧ "uninstall" ∈ args then
    some "Backup your node_modules or use npm ci to restore from package-lock.json if needed"
  else if tool = "docker" ∧ args.get? 0 = some "build" ∧ "--no-cache" ∈ args then
    some "Building without cache; this will take longer. Only use if you need fresh layers"
  else if tool = "git" ∧ "--amend" ∈ args then
    some "Amending commits rewrites history. Only do this before pushing"
  else none

/-- JS `argStr[0]`: the first character of a string, as a one-character
string, or none when the string is empty. -/
def firstCharStr (s : String) : Option String :=
  match s.toList with
  | [] => none
  | c :: _ => some (String.mk [c])

def handleGitExplanation (argStr : String) : String :=
  if jsStartsWith argStr "push" then
    if jsIncludes argStr "--force" then
      "Force-push: overwrites remote history. Risky on shared repos."
    else "Uploads local commits to remote."
  else if jsStartsWith argStr "reset" then
    if jsIncludes argStr "--hard" then
      "Hard reset: discards ALL uncommitted changes irreversibly."
    else "Resets to specified commit (soft/mixed mode)."
  else if jsStartsWith argStr "clean" then
    if jsIncludes argStr "-f" then "Force-clean: deletes untracked files."
    else "Shows what would be deleted."
  else "Git operation."

def handleDockerExplanation (argStr : String) : String :=
  if jsStartsWith argStr "system prune" then
    if jsIncludes argStr "-a" then
      "Removes all unused images (including tagged). High-impact."
    else "Removes only dangling resources."
  else if jsStartsWith argStr "rmi" then
    "Permanently deletes image. Dependent containers will break."
  else if jsStartsWith argStr "rm" then
    "Deletes container(s). Data lost unless volume persists."
  else "Docker operation."

def handleNpmExplanation (argStr : String) : String :=
  if jsIncludes argStr "install" then
    "Installs npm packages. Can modify package-lock.json and node_modules."
  else if jsIncludes argStr "uninstall" then
    "Removes npm packages from node_modules and package.json."
  else if jsIncludes argStr "publish" then
    "Publishes package to npm registry. PERMANENT; cannot be undone easily."
  else "npm package manager operation."

/-- Value produced by the `explanations[tool] || generic` lookup of
`generateExplanation`: a proper string, or — for a tool named after an
`Object.prototype` member — the truthy inherited member itself (a function,
or an object for `__proto__`), which is not a string. -/
inductive JsStr
  | str (s : String)
  | inherited (name : String)
deriving DecidableEq

/-- `generateExplanation` from src/analyzer.js (the `riskAnalysis` parameter
is accepted and unused, as in the source). The dictionary read
`explanations[tool]` traverses the prototype chain, so a tool named after an
`Object.prototype` member yields that truthy inherited member — not a
string — before the `||` generic fallback can apply. -/
def generateExplanation (tool : String) (args : List String) (_ra : RiskAnalysis) : JsStr :=
  let argStr := joinSpace args
  if tool = "rm" then
    .str ("Deletes files/directories. " ++
      (if jsIncludes argStr "-rf" then
        "Recursive mode (-rf) deletes everything in path WITHOUT confirmation."
       else if jsIncludes argStr "-r" then
        "Recursive mode (-r) deletes directories and contents."
       else "Deletes specified files."))
  else if tool = "mv" then
    .str "Moves/renames files. If target exists, it will be overwritten."
  else if tool = "cp" then
    .str ("Copies files. " ++
      (if jsIncludes argStr "-r" then "Recursive mode (-r) copies directories." else ""))
  else if tool = "git" then
    .str ("Git command: " ++ (firstCharStr argStr).getD "unknown" ++ ". " ++
      handleGitExplanation argStr)
  else if tool = "docker" then
    .str ("Docker command: " ++ (firstCharStr argStr).getD "unknown" ++ ". " ++
      handleDockerExplanation argStr)
  else if tool = "chmod" then
    .str ("Changes file permissions. " ++
      (match firstCharStr argStr with
       | some c => "Setting to " ++ c
       | none => "Permission change") ++ ".")
  else if tool = "chown" then
    .str ("Changes file owner. " ++
      (if jsIncludes argStr "-R" then "Recursive (-R) applies to all subdirectories." else ""))
  else if tool = "dd" then
    .str "Low-level disk copy utility. Extremely dangerous with wrong device parameters."
  else if tool = "curl" then
    .str ("Fetches content from URL. " ++
      (if jsIncludes argStr "|" then "Piping to shell (| sh/bash) executes downloaded content!"
       else "Shows content or downloads file."))
  else if tool = "wget" then
    .str ("Downloads files from URL. " ++
      (if jsIncludes argStr "|" then "Piping to shell executes the downloaded file!"
       else "Saves to disk."))
  else if tool = "npm" then .str (handleNpmExplanation argStr)
  else if tool = "node" then
    .str ("Executes JavaScript. " ++
      (if jsIncludes argStr "-e" then "Inline code execution with -e flag."
       else "Runs script file."))
  else if tool ∈ protoKeys then .inherited tool
  else .str ("Executes: " ++ tool ++ " " ++ argStr)

/-- `generateDryRun` from src/analyzer.js (the `riskAnalysis` parameter is
accepted and unused, as in the source). -/
def generateDryRun (tool : String) (args : List String) (_ra : RiskAnalysis) : String :=
  let argStr := joinSpace args
  if tool = "rm" then
    "Would delete: " ++
      (let l := String.intercalate ", " (args.filter (fun a => !(jsStartsWith a "-")))
       if l = "" then "[target path]" else l) ++
      (if "-rf" ∈ args then " (recursively, with all contents)" else "") ++
      " WITHOUT recovery."
  else if tool = "git" ∧ args.get? 0 = some "push" ∧ "--force" ∈ args then
    "Would overwrite remote history with local commits. Team members with old clones would need to force-pull."
  else if tool = "git" ∧ args.get? 0 = some "reset" ∧ "--hard" ∈ args then
    "Would discard all uncommitted changes. Files would revert to last commit state."
  else if tool = "docker" ∧ args.get? 0 = some "system" ∧ args.get? 1 = some "prune" then
    "Would remove Docker " ++
      (if "-a" ∈ args then "images (including used ones)" else "unused resources") ++
      ". Freed space would be reclaimed."
  else if tool = "chmod" then
    "Would set permissions to " ++ (args.get? 0).getD "undefined" ++ " on " ++
      (let l := String.intercalate ", " (args.drop 1)
       if l = "" then "[target]" else l) ++ "."
  else "Would execute: " ++ tool ++ " " ++ argStr

/-- The analysis result assembled by `analyzeCommand`. The empty-command
branch of the source omits `directedSuggestion` (JS `undefined`), modelled
as `none`. -/
structure AnalysisResult where
  tool : String
  command : String
  riskLevel : Severity
  risks : List RiskEntry
  suggestions : List String
  explanation : JsStr
  dryRun : String
  directedSuggestion : Option Suggestion := none
deriving DecidableEq

/-- `analyzeCommand` from src/analyzer.js: the engine's sole entry point. -/
def analyzeCommand (command : String) : AnalysisResult :=
  let parsed := parseCommand command
  let tool := parsed.tool
  let args := parsed.args
  if tool = "" then
    { tool := "", command := command, riskLevel := .low, risks := [],
      suggestions := [], explanation := .str "Empty command.",
      dryRun := "No operation would occur.", directedSuggestion := none }
  else
    let riskAnalysis := analyzeRisks tool args
    let pipeRisks := checkPipeRisks command tool args
    let allRisks := riskAnalysis.risks ++ pipeRisks
    let directedSuggestion := getSuggestion command
    let contextualSuggestion := getContextualSuggestion tool args
    { tool := tool, command := command,
      riskLevel := getRiskLevel allRisks,
      risks := allRisks,
      suggestions :=
        (match directedSuggestion with
         | some s => [s.explanation]
         | none => []) ++
        (match contextualSuggestion with
         | some s => [s]
         | none => []),
      explanation := generateExplanation tool args riskAnalysis,
      dryRun := generateDryRun tool args riskAnalysis,
      directedSuggestion := directedSuggestion }

/-- Binary maximum on severities under the total order low < medium < high. -/
def sevMax : Severity → Severity → Severity
  | .high, _ => .high
  | _, .high => .high
  | .medium, _ => .medium
  | _, .medium => .medium
  | _, _ => .low

/-- Maximum severity across a findings list, low when empty. -/
def maxSeverity (l : List RiskEntry) : Severity :=
  (l.map (fun r => r.risk)).foldr sevMax .low

/-! ### Helper lemmas -/

theorem splitWsAux_tokens (l : List Char) :
    ∀ (cur : List Char), cur.all (fun c => !isWs c) = true →
      ∀ w ∈ splitWsAux l cur, w ≠ [] ∧ w.all (fun c => !isWs c) = true := by
  induction l with
  | nil =>
    intro cur hcur w hw
    unfold splitWsAux at hw
    split at hw
    · simp at hw
    · rename_i hne
      simp only [List.mem_singleton] at hw
      subst hw
      refine ⟨fun hnil => hne ?_, by simpa using hcur⟩
      have : cur = [] := List.reverse_eq_nil_iff.mp hnil
      simp [this]
  | cons c cs ih =>
    intro cur hcur w hw
    unfold splitWsAux at hw
    split at hw
    · split at hw
      · exact ih [] (by simp) w hw
      · rename_i hne
        rw [List.mem_cons] at hw
        rcases hw with rfl | hw
        · refine ⟨fun hnil => hne ?_, by simpa using hcur⟩
          have : cur = [] := List.reverse_eq_nil_iff.mp hnil
          simp [this]
        · exact ih [] (by simp) w hw
    · rename_i hws
      refine ih (c :: cur) ?_ w hw
      simp only [List.all_cons, Bool.and_eq_true]
      exact ⟨by simpa using hws, hcur⟩

theorem parseCommand_args_clean (cmd : String) :
    ∀ a ∈ (parseCommand cmd).args, a.toList.all (fun c => !isWs c) = true := by
  intro a ha
  unfold parseCommand at ha
  cases hs : splitWs cmd.toList with
  | nil => rw [hs] at ha; simp at ha
  | cons t rest =>
    rw [hs] at ha
    simp only [List.mem_map] at ha
    rcases ha with ⟨w, hw, rfl⟩
    have hmem : w ∈ splitWsAux cmd.toList [] := by
      rw [show splitWsAux cmd.toList [] = splitWs cmd.toList from rfl, hs]
      exact List.mem_cons_of_mem _ hw
    exact (splitWsAux_tokens cmd.toList [] (by simp) w hmem).2

theorem splitWsAux_all_ws (l : List Char) (h : l.all isWs = true) :
    splitWsAux l [] = [] := by
  induction l with
  | nil => rfl
  | cons c cs ih =>
    simp only [List.all_cons, Bool.and_eq_true] at h
    unfold splitWsAux
    rw [if_pos h.1]
    simp only [List.isEmpty_nil, if_true]
    exact ih h.2

theorem parseCommand_ws (cmd : String) (h : cmd.toList.all isWs = true) :
    parseCommand cmd = ⟨"", []⟩ := by
  unfold parseCommand splitWs
  rw [splitWsAux_all_ws _ h]

theorem foldr_sevMax_eq_high (s : List Severity) :
    s.foldr sevMax .low = .high ↔ Severity.high ∈ s := by
  induction s with
  | nil => simp [sevMax]
  | cons a t ih =>
    simp only [List.foldr_cons, List.mem_cons]
    cases a <;> cases hx : t.foldr sevMax .low <;>
      rw [hx] at ih <;> simp [sevMax] at ih ⊢ <;> simp [ih]

theorem foldr_sevMax_eq_medium (s : List Severity) :
    s.foldr sevMax .low = .medium ↔ (Severity.high ∉ s ∧ Severity.medium ∈ s) := by
  induction s with
  | nil => simp [sevMax]
  | cons a t ih =>
    have hh := foldr_sevMax_eq_high t
    simp only [List.foldr_cons, List.mem_cons]
    cases a <;> cases hx : t.foldr sevMax .low <;>
      rw [hx] at ih hh <;> simp [sevMax] at ih hh ⊢ <;> simp_all

theorem getRiskLevel_eq_maxSeverity (l : List RiskEntry) :
    getRiskLevel l = maxSeverity l := by
  unfold getRiskLevel maxSeverity
  split
  · rename_i h
    rw [List.isEmpty_iff.mp h]
    rfl
  · split
    · rename_i hh
      symm
      rw [foldr_sevMax_eq_high]
      rw [List.any_eq_true] at hh
      rcases hh with ⟨r, hr, hrisk⟩
      rw [decide_eq_true_eq] at hrisk
      exact List.mem_map.mpr ⟨r, hr, hrisk⟩
    · split
      · rename_i hh hm
        symm
        rw [foldr_sevMax_eq_medium]
        constructor
        · intro hmem
          apply hh
          rcases List.mem_map.mp hmem with ⟨r, hr, hrisk⟩
          rw [List.any_eq_true]
          exact ⟨r, hr, by rw [decide_eq_true_eq]; exact hrisk⟩
        · rw [List.any_eq_true] at hm
          rcases hm with ⟨r, hr, hrisk⟩
          rw [decide_eq_true_eq] at hrisk
          exact List.mem_map.mpr ⟨r, hr, hrisk⟩
      · rename_i hh hm
        symm
        cases hx : (l.map (fun r => r.risk)).foldr sevMax .low with
        | high =>
          exfalso
          apply hh
          rcases List.mem_map.mp ((foldr_sevMax_eq_high _).mp hx) with ⟨r, hr, hrisk⟩
          rw [List.any_eq_true]
          exact ⟨r, hr, by rw [decide_eq_true_eq]; exact hrisk⟩
        | medium =>
          exfalso
          apply hm
          rcases ((foldr_sevMax_eq_medium _).mp hx).2 |> List.mem_map.mp with ⟨r, hr, hrisk⟩
          rw [List.any_eq_true]
          exact ⟨r, hr, by rw [decide_eq_true_eq]; exact hrisk⟩
        | low => rfl

theorem getRiskLevel_eq_high_of_mem (l : List RiskEntry) (r : RiskEntry)
    (hr : r ∈ l) (hh : r.risk = .high) : getRiskLevel l = .high := by
  unfold getRiskLevel
  have hne : l.isEmpty ≠ true := by
    cases l
    · simp at hr
    · simp
  rw [if_neg hne, if_pos]
  rw [List.any_eq_true]
  exact ⟨r, hr, by rw [decide_eq_true_eq]; exact hh⟩

theorem find?_first {α : Type} (p : α → Bool) :
    ∀ (l : List α) (a : α), l.find? p = some a →
      ∃ n, ∃ hn : n < l.length, l.get ⟨n, hn⟩ = a ∧ p a = true ∧
        ∀ m, ∀ hm : m < l.length, m < n → p (l.get ⟨m, hm⟩) = false := by
  intro l
  induction l with
  | nil => intro a h; simp at h
  | cons x t ih =>
    intro a h
    by_cases hx : p x = true
    · rw [List.find?_cons_of_pos _ hx] at h
      injection h with h
      subst h
      exact ⟨0, by simp, rfl, hx, fun m hm hlt => absurd hlt (Nat.not_lt_zero m)⟩
    · rw [List.find?_cons_of_neg _ hx] at h
      rcases ih a h with ⟨n, hn, hget, hpa, hfirst⟩
      refine ⟨n + 1, by simpa using Nat.succ_lt_succ hn, hget, hpa, ?_⟩
      intro m hm hlt
      cases m with
      | zero => simpa using Bool.eq_false_iff.mpr hx
      | succ k =>
        exact hfirst k (Nat.lt_of_succ_lt_succ hm) (Nat.lt_of_succ_lt_succ hlt)

theorem analyzeRisks_eq_of_none (tool : String) (args : List String)
    (h : riskPatterns tool = none) : (analyzeRisks tool args).risks = [] := by
  unfold analyzeRisks
  rw [h]
  split
  · split <;> rfl
  · rename_i pat heq
    exact Option.noConfusion heq

theorem analyzeRisks_eq_of_some (tool : String) (args : List String) (pat : ToolPattern)
    (h : riskPatterns tool = some pat) :
    (analyzeRisks tool args).risks =
      flatRiskList pat args (joinSpace args) ++ subRiskList pat args := by
  unfold analyzeRisks
  rw [h]

theorem riskPatterns_cases (tool : String) :
    riskPatterns tool = none ∨
    riskPatterns tool = some rmPattern ∨ riskPatterns tool = some gitPattern ∨
    riskPatterns tool = some dockerPattern ∨ riskPatterns tool = some ddPattern ∨
    riskPatterns tool = some chmodPattern ∨ riskPatterns tool = some chownPattern ∨
    riskPatterns tool = some sudoPattern ∨ riskPatterns tool = some curlPattern ∨
    riskPatterns tool = some wgetPattern := by
  unfold riskPatterns
  repeat' split
  all_goals simp

theorem mem_flatRiskList (pat : ToolPattern) (args : List String) (argStr : String)
    (r : RiskEntry) (hr : r ∈ flatRiskList pat args argStr) :
    ∃ rl, pat.risks = some rl ∧ r ∈ rl ∧ flatMatch args argStr r = true := by
  unfold flatRiskList at hr
  split at hr
  · simp at hr
  · rename_i rl heq
    rw [List.mem_filter] at hr
    exact ⟨rl, heq, hr.1, hr.2⟩

theorem mem_subRiskList (pat : ToolPattern) (args : List String) (r : RiskEntry)
    (hr : r ∈ subRiskList pat args) : subMatch args r = true := by
  unfold subRiskList at hr
  split at hr
  · simp at hr
  · split at hr
    · simp at hr
    · split at hr
      · simp at hr
      · split at hr
        · simp at hr
        · split at hr
          · simp at hr
          · exact (List.mem_filter.mp hr).2

theorem flag_match_mem (args : List String) (argStr : String) (r : RiskEntry) (f : String)
    (hk : r.key = RiskKey.flag f) :
    (flatMatch args argStr r = true → f ∈ args) ∧
    (subMatch args r = true → f ∈ args) := by
  constructor <;> intro h
  · unfold flatMatch at h
    rw [hk] at h
    exact of_decide_eq_true h
  · unfold subMatch at h
    rw [hk] at h
    exact of_decide_eq_true h

theorem mem_analyzeRisks_flag_in_args (tool : String) (args : List String)
    (r : RiskEntry) (f : String) (hr : r ∈ (analyzeRisks tool args).risks)
    (hk : r.key = RiskKey.flag f) : f ∈ args := by
  cases hpat : riskPatterns tool with
  | none =>
    rw [analyzeRisks_eq_of_none _ args hpat] at hr
    simp at hr
  | some pat =>
    rw [analyzeRisks_eq_of_some _ args _ hpat, List.mem_append] at hr
    rcases hr with hr | hr
    · rcases mem_flatRiskList _ _ _ _ hr with ⟨rl, _, _, hm⟩
      exact (flag_match_mem args _ r f hk).1 hm
    · exact (flag_match_mem args (joinSpace args) r f hk).2 (mem_subRiskList _ _ _ hr)

/-- No catalog-derived finding carries a pattern key `| sh` or `| bash`:
the sub-level matcher never matches pattern entries, and the flat pattern
entries of the catalog are `if=/dev/`, `of=/dev/` and `sudo` only. -/
theorem catalog_no_pipe_pattern (tool : String) (args : List String) (r : RiskEntry)
    (hr : r ∈ (analyzeRisks tool args).risks)
    (hk : r.key = RiskKey.pattern "| sh" ∨ r.key = RiskKey.pattern "| bash") : False := by
  rcases riskPatterns_cases tool with h | h | h | h | h | h | h | h | h | h
  · rw [analyzeRisks_eq_of_none _ args h] at hr
    simp at hr
  all_goals
    rw [analyzeRisks_eq_of_some _ args _ h, List.mem_append] at hr
  all_goals
    rcases hr with hr | hr
  all_goals first
    | (rcases mem_flatRiskList _ _ _ _ hr with ⟨rl, hrl, hmem, _⟩
       first
         | exact Option.noConfusion hrl
         | (injection hrl with hrl2
            have hall : rl.all (fun e => !(decide (e.key = RiskKey.pattern "| sh") ||
                decide (e.key = RiskKey.pattern "| bash"))) = true := by
              rw [← hrl2]
              decide
            rw [List.all_eq_true] at hall
            have hthis := hall r hmem
            rcases hk with hk | hk <;> rw [hk] at hthis <;> simp at hthis))
    | (have hsm := mem_subRiskList _ _ _ hr
       unfold subMatch at hsm
       rcases hk with hk | hk <;> rw [hk] at hsm <;> exact Bool.noConfusion hsm)

/-- The directed-suggestion rule holding for a command and suggestion: some
catalog index holds that suggestion, its trigger occurs in the command, and
no earlier-declared trigger does. -/
def firstTrigger (cmd : String) (s : Suggestion) : Prop :=
  ∃ n, ∃ hn : n < suggestionList.length,
    (suggestionList.get ⟨n, hn⟩).2 = s ∧
    jsIncludes cmd (suggestionList.get ⟨n, hn⟩).1 = true ∧
    ∀ m, ∀ hm : m < suggestionList.length, m < n →
      jsIncludes cmd (suggestionList.get ⟨m, hm⟩).1 = false

/-! ### Claim theorems -/

/-- Claim C1: for every command string, the `riskLevel` field of the
analysis result equals the maximum severity among its findings under the
total order low < medium < high, and equals low when the findings list is
empty. -/
theorem c1_riskLevel_is_max_severity (cmd : String) :
    (analyzeCommand cmd).riskLevel = maxSeverity (analyzeCommand cmd).risks := by
  simp only [analyzeCommand]
  split
  · rfl
  · exact getRiskLevel_eq_maxSeverity _

/-- Claim C4: whenever the tool is curl or wget and the raw command contains
a pipe into sh or bash, or the command is `docker system prune` with `-a`,
the cross-cutting heuristic layer (`checkPipeRisks`) contributes a
high-severity finding, appended after the catalog findings before
aggregation, and the overall risk level is high. -/
theorem c4_pipe_and_prune_heuristics (cmd : String)
    (h : (((parseCommand cmd).tool = "curl" ∨ (parseCommand cmd).tool = "wget") ∧
          (jsIncludes cmd "| sh" = true ∨ jsIncludes cmd "| bash" = true)) ∨
         ((parseCommand cmd).tool = "docker" ∧
          (parseCommand cmd).args.get? 0 = some "system" ∧
          (parseCommand cmd).args.get? 1 = some "prune" ∧
          "-a" ∈ (parseCommand cmd).args)) :
    (analyzeCommand cmd).risks =
      (analyzeRisks (parseCommand cmd).tool (parseCommand cmd).args).risks ++
        checkPipeRisks cmd (parseCommand cmd).tool (parseCommand cmd).args ∧
    (∃ r ∈ checkPipeRisks cmd (parseCommand cmd).tool (parseCommand cmd).args,
        r.risk = .high) ∧
    (analyzeCommand cmd).riskLevel = .high := by
  have htool : ¬ (parseCommand cmd).tool = "" := by
    rcases h with ⟨hc | hc, _⟩ | ⟨hc, _⟩ <;> rw [hc] <;> decide
  have hpipe : ∃ r ∈ checkPipeRisks cmd (parseCommand cmd).tool (parseCommand cmd).args,
      r.risk = .high := by
    unfold checkPipeRisks
    rcases h with ⟨h1, h2⟩ | hd
    · rw [if_pos ⟨h1, h2⟩]
      exact ⟨_, List.mem_append_left _ (List.mem_singleton.mpr rfl), rfl⟩
    · rw [if_pos hd]
      exact ⟨_, List.mem_append_right _ (List.mem_singleton.mpr rfl), rfl⟩
  refine ⟨?_, hpipe, ?_⟩
  · simp only [analyzeCommand]
    rw [if_neg htool]
  · simp only [analyzeCommand]
    rw [if_neg htool]
    rcases hpipe with ⟨r, hr, hh⟩
    exact getRiskLevel_eq_high_of_mem _ r (List.mem_append.mpr (Or.inr hr)) hh

/-- Witness for C4 at the spec's scenario input. -/
theorem c4_witness :
    (analyzeCommand "curl https://example.com | sh").riskLevel = .high :=
  (c4_pipe_and_prune_heuristics "curl https://example.com | sh"
    (Or.inl ⟨Or.inl (by decide), Or.inl (by decide)⟩)).2.2

/-- Claim C5: a flag-keyed catalog entry produces a finding from the flat
risk matcher iff its flag string appears verbatim as one of the argument
tokens (never by substring), and `analyze "rm -rfx /tmp"` produces no
finding at all. -/
theorem c5_flag_exact_token (pat : ToolPattern) (rl : List RiskEntry)
    (args : List String) (argStr : String) (e : RiskEntry) (f : String)
    (hrl : pat.risks = some rl) (hk : e.key = RiskKey.flag f) :
    (e ∈ flatRiskList pat args argStr ↔ e ∈ rl ∧ f ∈ args) ∧
    (analyzeCommand "rm -rfx /tmp").risks = [] := by
  constructor
  · unfold flatRiskList
    rw [hrl, List.mem_filter]
    simp [flatMatch, hk]
  · decide

/-- Witness for C5: the `-rf` entry of rm against `rm -rfx /tmp`'s argument
tokens. -/
theorem c5_witness :
    ((RiskEntry.mk (.flag "-rf") .high "Recursively deletes without confirmation") ∈
        flatRiskList rmPattern ["-rfx", "/tmp"] "-rfx /tmp" ↔
      ((RiskEntry.mk (.flag "-rf") .high "Recursively deletes without confirmation") ∈
          [RiskEntry.mk (.flag "-rf") .high "Recursively deletes without confirmation",
           RiskEntry.mk (.flag "-f") .high "Forces deletion, ignores permissions",
           RiskEntry.mk (.flag "-r") .medium "Recursive deletion; combine with -f for high risk"] ∧
        "-rf" ∈ ["-rfx", "/tmp"])) ∧
    (analyzeCommand "rm -rfx /tmp").risks = [] :=
  c5_flag_exact_token rmPattern _ ["-rfx", "/tmp"] "-rfx /tmp" _ "-rf" rfl rfl

/-- Claim C7: every empty or whitespace-only input yields the fully-defined
degenerate result: empty tool, low risk, no findings, explanation
"Empty command.", dry run "No operation would occur.". -/
theorem c7_empty_command (cmd : String) (h : cmd.toList.all isWs = true) :
    analyzeCommand cmd =
      { tool := "", command := cmd, riskLevel := .low, risks := [],
        suggestions := [], explanation := .str "Empty command.",
        dryRun := "No operation would occur.", directedSuggestion := none } := by
  simp only [analyzeCommand, parseCommand_ws cmd h]
  rw [if_pos trivial]

/-- Counterexample to claim C3: the docker catalog declares a high-severity
`--volumes` entry under the nested `system prune` object and the flag is
present as a token of `docker system prune --volumes`, yet the analysis
produces no finding at all and reports low risk — the matcher never
descends nested subcommand maps. -/
theorem c3_counterexample :
    (RiskEntry.mk (.flag "--volumes") .high "Deletes unused volumes with potential data")
        ∈ dockerSystemPruneRisks ∧
    "--volumes" ∈ (parseCommand "docker system prune --volumes").args ∧
    (analyzeCommand "docker system prune --volumes").risks = [] ∧
    (analyzeCommand "docker system prune --volumes").riskLevel = .low := by
  refine ⟨by decide, by decide, by decide, by decide⟩

/-- Amended claim C3: subcommand matching descends exactly one level and
applies only the exact-token flag rule to the subcommand's directly declared
risks list (so a declared flag such as git push `--force` produces its
finding), while nested subcommand maps such as docker's `system prune` are
never consulted: a docker command whose first argument is `system` yields no
catalog finding at all. -/
theorem c3_subcommand_one_level (args : List String) :
    ("--force" ∈ args →
      (RiskEntry.mk (.flag "--force") .high "Overwrites remote history; may affect team")
        ∈ (analyzeRisks "git" ("push" :: args)).risks) ∧
    (args.head? = some "system" → (analyzeRisks "docker" args).risks = []) := by
  constructor
  · intro hf
    have hrisks : (analyzeRisks "git" ("push" :: args)).risks =
        List.filter (subMatch ("push" :: args))
          [⟨.flag "--force", .high, "Overwrites remote history; may affect team"⟩,
           ⟨.flag "-f", .high, "Same as --force; destructive to shared repo"⟩] := rfl
    have hm : subMatch ("push" :: args)
        ⟨.flag "--force", .high, "Overwrites remote history; may affect team"⟩ = true := by
      show decide ("--force" ∈ "push" :: args) = true
      rw [decide_eq_true_eq]
      exact List.mem_cons_of_mem _ hf
    rw [hrisks, List.mem_filter]
    exact ⟨List.mem_cons_self _ _, hm⟩
  · intro hh
    rcases args with _ | ⟨a0, rest⟩
    · simp at hh
    · simp only [List.head?_cons, Option.some.injEq] at hh
      subst hh
      rfl

/-- Witness for the amended C3: git push --force does produce the catalog
finding, while docker system prune --volumes produces none. -/
theorem c3_witness :
    (RiskEntry.mk (.flag "--force") .high "Overwrites remote history; may affect team")
        ∈ (analyzeRisks "git" ["push", "--force"]).risks ∧
    (analyzeRisks "docker" ["system", "prune", "--volumes"]).risks = [] :=
  ⟨(c3_subcommand_one_level ["--force"]).1 (by decide),
   (c3_subcommand_one_level ["system", "prune", "--volumes"]).2 rfl⟩

/-- Counterexample to claim C6: `analyze "git push --force"` does return
riskLevel high, but no element of its `suggestions` list references
`--force-with-lease`: the list carries only the matched rule's explanation
text. -/
theorem c6_counterexample :
    (analyzeCommand "git push --force").riskLevel = .high ∧
    (analyzeCommand "git push --force").suggestions ≠ [] ∧
    (analyzeCommand "git push --force").suggestions.all
      (fun s => !(jsIncludes s "--force-with-lease")) = true := by
  refine ⟨by decide, by decide, by decide⟩

/-- Amended claim C6: `analyze "git push --force"` returns riskLevel high,
and the safer template of its `directedSuggestion` field references
`--force-with-lease`; the `suggestions` string list contains exactly that
rule's explanation, which does not mention it. -/
theorem c6_force_with_lease_in_directed :
    (analyzeCommand "git push --force").riskLevel = .high ∧
    (∃ d, (analyzeCommand "git push --force").directedSuggestion = some d ∧
      jsIncludes d.safer "--force-with-lease" = true ∧
      (analyzeCommand "git push --force").suggestions = [d.explanation]) := by
  refine ⟨by decide,
    ⟨⟨"git push --force", "git push --force-with-lease",
      "Only force-push if remote hasn\x27t changed; safer for shared repos"⟩,
     by decide, by decide, by decide⟩⟩

/-- Counterexample to claim C8: `mv` is absent from the risk catalog (so the
matcher reports found=false with no findings), yet the explanation is the
mv-specific template, not the generic fallback. -/
theorem c8_counterexample :
    riskPatterns "mv" = none ∧
    (analyzeRisks "mv" ["a", "b"]).found = false ∧
    (analyzeRisks "mv" ["a", "b"]).risks = [] ∧
    (analyzeCommand "mv a b").explanation =
      .str "Moves/renames files. If target exists, it will be overwritten." ∧
    (analyzeCommand "mv a b").explanation ≠ .str "Executes: mv a b" := by
  refine ⟨rfl, by decide, by decide, by decide, by decide⟩

/-- Amended claim C8: for every command whose tool is absent from the
pattern catalog, the outcome splits on whether the tool names an
`Object.prototype` member. If it does not, the matcher returns found=false
with an empty findings list, the final result carries no findings, the
dry-run falls back to the generic template, and the explanation falls back
to the generic template unless the tool is one of mv, cp, npm, node, which
carry tool-specific explanation text despite being absent from the catalog.
If it does (e.g. `toString`), the inherited member is truthy: the matcher
reports found=true — still with no findings — and the explanation is the
inherited member itself rather than any template. -/
theorem c8_unknown_tool_fallback (cmd : String)
    (h1 : ¬ (parseCommand cmd).tool = "")
    (h2 : riskPatterns (parseCommand cmd).tool = none) :
    ((¬ (parseCommand cmd).tool ∈ protoKeys) →
      (analyzeRisks (parseCommand cmd).tool (parseCommand cmd).args).found = false ∧
      (analyzeRisks (parseCommand cmd).tool (parseCommand cmd).args).risks = [] ∧
      (analyzeCommand cmd).risks = [] ∧
      (analyzeCommand cmd).dryRun =
        "Would execute: " ++ (parseCommand cmd).tool ++ " " ++
          joinSpace (parseCommand cmd).args ∧
      ((¬ (parseCommand cmd).tool = "mv") ∧ (¬ (parseCommand cmd).tool = "cp") ∧
       (¬ (parseCommand cmd).tool = "npm") ∧ (¬ (parseCommand cmd).tool = "node") →
        (analyzeCommand cmd).explanation =
          .str ("Executes: " ++ (parseCommand cmd).tool ++ " " ++
            joinSpace (parseCommand cmd).args))) ∧
    ((parseCommand cmd).tool ∈ protoKeys →
      (analyzeRisks (parseCommand cmd).tool (parseCommand cmd).args).found = true ∧
      (analyzeRisks (parseCommand cmd).tool (parseCommand cmd).args).risks = [] ∧
      (analyzeCommand cmd).risks = [] ∧
      (analyzeCommand cmd).explanation = JsStr.inherited (parseCommand cmd).tool ∧
      (analyzeCommand cmd).dryRun =
        "Would execute: " ++ (parseCommand cmd).tool ++ " " ++
          joinSpace (parseCommand cmd).args) := by
  have hrm : ¬ (parseCommand cmd).tool = "rm" := by
    intro hc
    rw [hc, show riskPatterns "rm" = some rmPattern from rfl] at h2
    exact Option.noConfusion h2
  have hgit : ¬ (parseCommand cmd).tool = "git" := by
    intro hc
    rw [hc, show riskPatterns "git" = some gitPattern from rfl] at h2
    exact Option.noConfusion h2
  have hdocker : ¬ (parseCommand cmd).tool = "docker" := by
    intro hc
    rw [hc, show riskPatterns "docker" = some dockerPattern from rfl] at h2
    exact Option.noConfusion h2
  have hdd : ¬ (parseCommand cmd).tool = "dd" := by
    intro hc
    rw [hc, show riskPatterns "dd" = some ddPattern from rfl] at h2
    exact Option.noConfusion h2
  have hchmod : ¬ (parseCommand cmd).tool = "chmod" := by
    intro hc
    rw [hc, show riskPatterns "chmod" = some chmodPattern from rfl] at h2
    exact Option.noConfusion h2
  have hchown : ¬ (parseCommand cmd).tool = "chown" := by
    intro hc
    rw [hc, show riskPatterns "chown" = some chownPattern from rfl] at h2
    exact Option.noConfusion h2
  have hcurl : ¬ (parseCommand cmd).tool = "curl" := by
    intro hc
    rw [hc, show riskPatterns "curl" = some curlPattern from rfl] at h2
    exact Option.noConfusion h2
  have hwget : ¬ (parseCommand cmd).tool = "wget" := by
    intro hc
    rw [hc, show riskPatterns "wget" = some wgetPattern from rfl] at h2
    exact Option.noConfusion h2
  have hcp : checkPipeRisks cmd (parseCommand cmd).tool (parseCommand cmd).args = [] := by
    unfold checkPipeRisks
    rw [if_neg, if_neg]
    · rfl
    · intro hc
      exact hdocker hc.1
    · intro hc
      rcases hc.1 with hc1 | hc1
      · exact hcurl hc1
      · exact hwget hc1
  have hdry : (analyzeCommand cmd).dryRun =
      "Would execute: " ++ (parseCommand cmd).tool ++ " " ++
        joinSpace (parseCommand cmd).args := by
    simp only [analyzeCommand]
    rw [if_neg h1]
    show generateDryRun (parseCommand cmd).tool (parseCommand cmd).args
        (analyzeRisks (parseCommand cmd).tool (parseCommand cmd).args) = _
    simp only [generateDryRun]
    rw [if_neg hrm, if_neg (fun hc => hgit hc.1), if_neg (fun hc => hgit hc.1),
        if_neg (fun hc => hdocker hc.1), if_neg hchmod]
  constructor
  · intro hpk
    have hra : analyzeRisks (parseCommand cmd).tool (parseCommand cmd).args =
        { found := false, tool := (parseCommand cmd).tool, risks := [] } := by
      unfold analyzeRisks
      rw [h2, if_neg hpk]
    refine ⟨by rw [hra], by rw [hra], ?_, hdry, ?_⟩
    · show (analyzeCommand cmd).risks = []
      simp only [analyzeCommand]
      rw [if_neg h1]
      show (analyzeRisks _ _).risks ++ checkPipeRisks _ _ _ = []
      rw [hra, hcp]
      rfl
    · intro ⟨hmv, hcpTool, hnpm, hnode⟩
      simp only [analyzeCommand]
      rw [if_neg h1]
      show generateExplanation (parseCommand cmd).tool (parseCommand cmd).args
          (analyzeRisks (parseCommand cmd).tool (parseCommand cmd).args) = _
      simp only [generateExplanation]
      rw [if_neg hrm, if_neg hmv, if_neg hcpTool, if_neg hgit, if_neg hdocker,
          if_neg hchmod, if_neg hchown, if_neg hdd, if_neg hcurl, if_neg hwget,
          if_neg hnpm, if_neg hnode, if_neg hpk]
  · intro hpk
    have hra : analyzeRisks (parseCommand cmd).tool (parseCommand cmd).args =
        { found := true, tool := (parseCommand cmd).tool, risks := [] } := by
      unfold analyzeRisks
      rw [h2, if_pos hpk]
    have hmv : ¬ (parseCommand cmd).tool = "mv" := by
      intro hc
      rw [hc] at hpk
      exact absurd hpk (by decide)
    have hcpTool : ¬ (parseCommand cmd).tool = "cp" := by
      intro hc
      rw [hc] at hpk
      exact absurd hpk (by decide)
    have hnpm : ¬ (parseCommand cmd).tool = "npm" := by
      intro hc
      rw [hc] at hpk
      exact absurd hpk (by decide)
    have hnode : ¬ (parseCommand cmd).tool = "node" := by
      intro hc
      rw [hc] at hpk
      exact absurd hpk (by decide)
    refine ⟨by rw [hra], by rw [hra], ?_, ?_, hdry⟩
    · show (analyzeCommand cmd).risks = []
      simp only [analyzeCommand]
      rw [if_neg h1]
      show (analyzeRisks _ _).risks ++ checkPipeRisks _ _ _ = []
      rw [hra, hcp]
      rfl
    · simp only [analyzeCommand]
      rw [if_neg h1]
      show generateExplanation (parseCommand cmd).tool (parseCommand cmd).args
          (analyzeRisks (parseCommand cmd).tool (parseCommand cmd).args) = _
      simp only [generateExplanation]
      rw [if_neg hrm, if_neg hmv, if_neg hcpTool, if_neg hgit, if_neg hdocker,
          if_neg hchmod, if_neg hchown, if_neg hdd, if_neg hcurl, if_neg hwget,
          if_neg hnpm, if_neg hnode, if_pos hpk]

/-- Witness for the amended C8: an uncatalogued ordinary tool takes the
not-found generic path, and an uncatalogued `Object.prototype`-member tool
takes the inherited found=true path. -/
theorem c8_witness :
    (analyzeRisks (parseCommand "foobar --baz").tool
      (parseCommand "foobar --baz").args).found = false ∧
    (analyzeCommand "foobar --baz").risks = [] ∧
    (analyzeCommand "foobar --baz").dryRun =
      "Would execute: " ++ (parseCommand "foobar --baz").tool ++ " " ++
        joinSpace (parseCommand "foobar --baz").args ∧
    (analyzeCommand "foobar --baz").explanation =
      .str ("Executes: " ++ (parseCommand "foobar --baz").tool ++ " " ++
        joinSpace (parseCommand "foobar --baz").args) ∧
    (analyzeRisks (parseCommand "valueOf").tool
      (parseCommand "valueOf").args).found = true ∧
    (analyzeCommand "valueOf").explanation =
      JsStr.inherited (parseCommand "valueOf").tool := by
  have h := (c8_unknown_tool_fallback "foobar --baz" (by decide) rfl).1 (by decide)
  have hp := (c8_unknown_tool_fallback "valueOf" (by decide) rfl).2 (by decide)
  exact ⟨h.1, h.2.2.1, h.2.2.2.1,
    h.2.2.2.2 ⟨by decide, by decide, by decide, by decide⟩,
    hp.1, hp.2.2.2.1⟩

/-- Witness for C7 at a whitespace-only input. -/
theorem c7_witness :
    ("   ".toList.all isWs = true) ∧
      analyzeCommand "   " =
        { tool := "", command := "   ", riskLevel := .low, risks := [],
          suggestions := [], explanation := .str "Empty command.",
          dryRun := "No operation would occur.", directedSuggestion := none } :=
  ⟨by decide, c7_empty_command "   " (by decide)⟩

/-- Claim C2 is contradicted by the code at the input `toString` (any
`Object.prototype` member name behaves alike): the `explanations[tool]`
read returns the truthy inherited `Object.prototype.toString` function, so
the result's explanation is that function — not a string, contradicting the
claim and `generateExplanation`'s own `@returns \x7bstring\x7d` documentation —
while the matcher likewise reports found=true off the inherited
`riskPatterns` member. `analyze` still terminates and the other fields are
as declared. -/
theorem c2_prototype_leak :
    (analyzeCommand "toString").explanation = JsStr.inherited "toString" ∧
    (analyzeRisks "toString" []).found = true ∧
    (analyzeRisks "toString" []).risks = [] ∧
    (analyzeCommand "toString").riskLevel = .low ∧
    (analyzeCommand "toString").dryRun = "Would execute: toString " := by
  refine ⟨by decide, by decide, by decide, by decide, by decide⟩

/-- Claim C9: the directed suggestion is the first rule, in the catalog's
declared order, whose trigger substring occurs anywhere in the raw command,
and none when no trigger occurs. -/
theorem c9_directed_first_match (cmd : String) :
    (getSuggestion cmd = none ↔
      ∀ p ∈ suggestionList, jsIncludes cmd p.1 = false) ∧
    (∀ s, getSuggestion cmd = some s → firstTrigger cmd s) := by
  constructor
  · unfold getSuggestion
    rw [Option.map_eq_none', List.find?_eq_none]
    constructor
    · intro h p hp
      have := h p hp
      simpa using this
    · intro h p hp
      simp [h p hp]
  · intro s hs
    unfold getSuggestion at hs
    rw [Option.map_eq_some'] at hs
    rcases hs with ⟨pr, hfind, hsnd⟩
    rcases find?_first _ suggestionList pr hfind with ⟨n, hn, hget, hp, hfirst⟩
    refine ⟨n, hn, ?_, ?_, ?_⟩
    · rw [hget]
      exact hsnd
    · rw [hget]
      exact hp
    · intro m hm hlt
      have := hfirst m hm hlt
      simpa using this

/-- Witness for C9: a command containing the triggers of two rules returns
the earlier-declared rule (git push --force, declared before
git reset --hard). -/
theorem c9_witness :
    jsIncludes "git push --force && git reset --hard" "git push --force" = true ∧
    jsIncludes "git push --force && git reset --hard" "git reset --hard" = true ∧
    firstTrigger "git push --force && git reset --hard"
      ⟨"git push --force", "git push --force-with-lease",
       "Only force-push if remote hasn\x27t changed; safer for shared repos"⟩ :=
  ⟨by decide, by decide,
   (c9_directed_first_match "git push --force && git reset --hard").2 _ (by decide)⟩

/-- Claim C10: a flag-keyed catalog entry whose flag contains whitespace
(such as the `| sh` / `| bash` entries under curl and wget) can never
match, because argument tokens never contain whitespace; consequently every
pipe-to-shell finding of an analysis result originates from the
cross-cutting heuristic layer (`checkPipeRisks`), never from the catalog. -/
theorem c10_pipe_findings_only_heuristic (cmd : String) :
    (∀ r ∈ (analyzeRisks (parseCommand cmd).tool (parseCommand cmd).args).risks,
      ∀ f, r.key = RiskKey.flag f → f.toList.all (fun c => !isWs c) = true) ∧
    (∀ r ∈ (analyzeCommand cmd).risks,
      (r.key = RiskKey.pattern "| sh" ∨ r.key = RiskKey.pattern "| bash" ∨
       r.key = RiskKey.flag "| sh" ∨ r.key = RiskKey.flag "| bash") →
      r ∈ checkPipeRisks cmd (parseCommand cmd).tool (parseCommand cmd).args) := by
  have hclean : ∀ r ∈ (analyzeRisks (parseCommand cmd).tool (parseCommand cmd).args).risks,
      ∀ f, r.key = RiskKey.flag f → f.toList.all (fun c => !isWs c) = true := by
    intro r hr f hk
    have hf : f ∈ (parseCommand cmd).args :=
      mem_analyzeRisks_flag_in_args _ _ r f hr hk
    exact parseCommand_args_clean cmd f hf
  refine ⟨hclean, ?_⟩
  intro r hr hkey
  by_cases htool : (parseCommand cmd).tool = ""
  · simp only [analyzeCommand] at hr
    rw [if_pos htool] at hr
    simp at hr
  · simp only [analyzeCommand] at hr
    rw [if_neg htool] at hr
    have hr2 : r ∈ (analyzeRisks (parseCommand cmd).tool (parseCommand cmd).args).risks ++
        checkPipeRisks cmd (parseCommand cmd).tool (parseCommand cmd).args := hr
    rw [List.mem_append] at hr2
    rcases hr2 with hcat | hpipe
    · exfalso
      rcases hkey with hk | hk | hk | hk
      · exact catalog_no_pipe_pattern _ _ r hcat (Or.inl hk)
      · exact catalog_no_pipe_pattern _ _ r hcat (Or.inr hk)
      · have := hclean r hcat "| sh" hk
        exact absurd this (by decide)
      · have := hclean r hcat "| bash" hk
        exact absurd this (by decide)
    · exact hpipe

/-- Witness for C10: the pipe finding of a curl-pipe command lies in the
heuristic layer's output. -/
theorem c10_witness :
    (RiskEntry.mk (.pattern "| sh") .high
        "Piping to shell executes downloaded content without inspection") ∈
      checkPipeRisks "curl https://a.io | sh"
        (parseCommand "curl https://a.io | sh").tool
        (parseCommand "curl https://a.io | sh").args :=
  (c10_pipe_findings_only_heuristic "curl https://a.io | sh").2
    _ (by decide) (Or.inl rfl)

end CmdGuard
